import Mathlib

/-!
Verification of the THJ-Bot changelog ingestion and batching pipeline.

This file shallowly embeds the Python sources `Patcher_API.py` (the
`ChangelogMonitor` class with its debounce batcher, watermark persistence and
control endpoint) and `reddit_poster.py` (the Reddit sink with its
published-entry ledger and batch idempotence check), and proves the behavioral
properties of the pipeline against those definitions.

Embedding conventions:
* A changelog entry's `id` is the digit string captured by the regex
  `## Entry (\d+)`; the sources compare ids numerically via Python `int(...)`
  (modelled by `intOfDigits`) except in `generate_batch_id`, which sorts the
  raw id strings lexicographically (modelled by `strLe` on `String.data`,
  which is code-point lexicographic order exactly like Python `str` order).
* Timestamps are ISO-8601 strings in the sources, parsed with
  `datetime.fromisoformat` before every comparison; since that parse is an
  order isomorphism on the valid timestamps the pipeline produces, timestamps
  are embedded as integers (minutes for the Reddit window logic, seconds for
  the debounce timing model); `posted_at` ledger keys likewise.
* Python `list.sort` is a stable sort; it is modelled by
  `List.insertionSort`, which is also stable.
* File I/O and `json.load` are modelled by explicit file-state arguments
  (`StateFile`, `LedgerFile`, an `Option (List Entry)` for the parsed store);
  exceptions raised and caught by the sources are modelled by the
  corresponding caught branches.
-/

namespace THJBot

/-- Python string comparison: code-point lexicographic order on the
character sequences (`"10" < "9"` in both Python and this order). -/
def strLe (a b : String) : Prop := a.data ≤ b.data

instance : DecidableRel strLe := fun a b =>
  inferInstanceAs (Decidable (a.data ≤ b.data))

instance : IsTotal String strLe := ⟨fun a b => le_total a.data b.data⟩

instance : IsTrans String strLe := ⟨fun _ _ _ => le_trans⟩

instance : IsAntisymm String strLe :=
  ⟨fun _ _ h1 h2 => String.ext (le_antisymm h1 h2)⟩

/-- Python `int(s)` on the digit strings captured by the changelog regex
`## Entry (\d+)` (on such strings `int` never raises). -/
def intOfDigits (s : String) : Nat :=
  s.data.foldl (fun acc c => acc * 10 + (c.toNat - 48)) 0

/-- One changelog entry, as built by `ChangelogMonitor.detect_new_entries`:
`{'id': ..., 'author': ..., 'timestamp': ..., 'content': ...}`. -/
structure Entry where
  id : String
  author : String
  timestamp : Int
  content : String
deriving DecidableEq, Repr, Inhabited

/-- `int(entry['id'])`, the numeric sort/comparison key used throughout
`Patcher_API.py`. -/
def intId (e : Entry) : Nat := intOfDigits e.id

/-- The ordering used by `self.pending_entries.sort(key=lambda x: int(x['id']))`
and `new_entries.sort(key=lambda x: int(x['id']))`. -/
def byIdLe (a b : Entry) : Prop := intId a ≤ intId b

instance : DecidableRel byIdLe := fun a b => Nat.decLe _ _

instance : IsTotal Entry byIdLe := ⟨fun a b => Nat.le_total _ _⟩

instance : IsTrans Entry byIdLe := ⟨fun _ _ _ => Nat.le_trans⟩

/-- Stable ascending sort by `int(x['id'])` (Python `list.sort` with that key). -/
def sortById (l : List Entry) : List Entry := List.insertionSort byIdLe l

/-- The newness test of `detect_new_entries`:
`self.last_processed_entry_id is None or int(entry_id) > int(self.last_processed_entry_id)`. -/
def isNewEntry (wm : Option String) (e : Entry) : Bool :=
  match wm with
  | none => true
  | some w => decide (intOfDigits w < intId e)

/-- `ChangelogMonitor.detect_new_entries`: with the parsed store content as
input (`none` models a missing `CHANGELOG_PATH`, for which the function
returns `[]`), keep the entries newer than the watermark and sort them
ascending by numeric id.  The enclosing `try/except` also returns `[]` on any
exception. -/
def detect_new_entries (wm : Option String) (file : Option (List Entry)) :
    List Entry :=
  match file with
  | none => []
  | some parsed => sortById (parsed.filter (isNewEntry wm))

/-- `ChangelogMonitor.handle_new_entries` (pending-set update): the set
`existing_ids = {e['id'] for e in self.pending_entries}` is computed once,
then each incoming entry whose id is not in that set is appended. -/
def handle_new_entries (pending new_entries : List Entry) : List Entry :=
  pending ++ new_entries.filter (fun e => !decide (e.id ∈ pending.map Entry.id))

/-- `ChangelogMonitor.load_state`: the persisted watermark file.
`absent` models a missing `PROCESSING_STATE_PATH` (the field keeps its
`__init__` value `None`); `unreadable` and `invalidJson` model the caught
open/`json.load` exceptions; `valid wm` models a readable JSON state whose
`last_processed_entry_id` key holds `wm`. -/
inductive StateFile where
  | absent
  | unreadable
  | invalidJson (raw : String)
  | valid (last_processed_entry_id : Option String)
deriving DecidableEq, Repr

/-- `ChangelogMonitor.load_state` run at `__init__` time (when
`last_processed_entry_id` is `None`): result of the field after the call. -/
def load_state (f : StateFile) : Option String :=
  match f with
  | .absent => none
  | .unreadable => none
  | .invalidJson _ => none
  | .valid wm => wm

/-- Observable behavior of a sink call during a flush. -/
inductive SinkBehavior where
  | succeeds
  | fails
  | raises
deriving DecidableEq, Repr

/-- `ChangelogMonitor.post_batch_to_reddit`: whether an exception propagates
to the caller.  A failed import returns; a `(False, msg)` result is only
logged; a raised exception is caught by the method's own `except` clause and
logged.  No branch re-raises. -/
def post_batch_to_reddit_propagates : SinkBehavior → Bool
  | .succeeds => false
  | .fails => false
  | .raises => false

/-- `update_wiki_with_new_entries`: whether an exception propagates to the
caller.  The whole body is wrapped in `try/except` returning `False`, so no
branch re-raises. -/
def update_wiki_propagates : SinkBehavior → Bool
  | .succeeds => false
  | .fails => false
  | .raises => false

/-- Result of one `ChangelogMonitor.process_pending_entries` call:
the watermark field afterwards, what `save_state` wrote (`none` when it was
not called), the pending list afterwards, whether `debounce_timer` was set to
`None`, and the argument handed to each sink (`none` when that sink was not
invoked).  The Reddit sink receives the single `latest_entry`
(`post_batch_to_reddit(latest_entry)`), the wiki sink receives the full
sorted pending list (`update_wiki_with_new_entries(self.pending_entries)`). -/
structure FlushResult where
  last_processed_entry_id : Option String
  saved_state : Option (Option String)
  pending_entries : List Entry
  timer_cleared : Bool
  redditArg : Option Entry
  wikiArg : Option (List Entry)
deriving DecidableEq, Repr

/-- `ChangelogMonitor.process_pending_entries`.  `redditEnabled` is
`should_post_to_reddit()` (all Reddit env credentials set), `wikiEnabled` is
`should_update_wiki()`.  The body sorts the pending list in place, posts
`latest_entry` to Reddit, updates the wiki with the full list, then advances
and persists the watermark and clears pending and timer; its `except` branch
(reached only if a called step raises) keeps the pending list and the
watermark.  The sink wrappers swallow their own exceptions (see
`post_batch_to_reddit_propagates`, `update_wiki_propagates`). -/
def process_pending_entries (wm : Option String) (pending : List Entry)
    (redditEnabled wikiEnabled : Bool) (rb wb : SinkBehavior) : FlushResult :=
  if pending.isEmpty then
    { last_processed_entry_id := wm, saved_state := none,
      pending_entries := pending, timer_cleared := false,
      redditArg := none, wikiArg := none }
  else
    let sorted := sortById pending
    let latest_entry := sorted.getLastD default
    let redditArg := if redditEnabled then some latest_entry else none
    if redditEnabled && post_batch_to_reddit_propagates rb then
      { last_processed_entry_id := wm, saved_state := none,
        pending_entries := sorted, timer_cleared := false,
        redditArg := redditArg, wikiArg := none }
    else
      let wikiArg := if wikiEnabled then some sorted else none
      if wikiEnabled && update_wiki_propagates wb then
        { last_processed_entry_id := wm, saved_state := none,
          pending_entries := sorted, timer_cleared := false,
          redditArg := redditArg, wikiArg := wikiArg }
      else
        { last_processed_entry_id := some latest_entry.id,
          saved_state := some (some latest_entry.id),
          pending_entries := [], timer_cleared := true,
          redditArg := redditArg, wikiArg := wikiArg }

/-- The mutable monitor state touched by the `/monitor-control` endpoint. -/
structure MonitorCtlState where
  monitoring_active : Bool
  pending_entries : List Entry
  timer_armed : Bool
  last_processed_entry_id : Option String
deriving DecidableEq, Repr

/-- Response of the `/monitor-control` endpoint: the monitor state
afterwards plus the JSON message, or HTTP 400 for an unknown action. -/
inductive CtlResponse where
  | ok (state : MonitorCtlState) (message : String)
  | badRequest
deriving DecidableEq, Repr

/-- `control_monitor` (`POST /monitor-control`): `pause` clears
`monitoring_active`, `resume` sets it, `reset` clears the pending list and
cancels the timer but keeps the last processed id; anything else is a 400. -/
def control_monitor (action : String) (s : MonitorCtlState) : CtlResponse :=
  if action = "pause" then
    .ok { s with monitoring_active := false } "Monitoring paused"
  else if action = "resume" then
    .ok { s with monitoring_active := true } "Monitoring resumed"
  else if action = "reset" then
    .ok { s with pending_entries := [], timer_armed := false } "Monitor state reset"
  else .badRequest

/-- Monitor state after a `/monitor-control` call (unchanged on a 400). -/
def ctlStateAfter (action : String) (s : MonitorCtlState) : MonitorCtlState :=
  match control_monitor action s with
  | .ok s1 _ => s1
  | .badRequest => s

/-- State of the `monitor_changelog_file` task together with the control
flag: `loopRunning` is whether the task is still inside its
`while self.monitoring_active:` loop. -/
structure LoopState where
  ctl : MonitorCtlState
  loopRunning : Bool
deriving DecidableEq, Repr

/-- Events relevant to the polling loop: the two control actions and the
top-of-loop check of `while self.monitoring_active:` (executed once per
5-second polling iteration). -/
inductive MonEvent where
  | pause
  | resume
  | loopCheck
deriving DecidableEq, Repr

/-- One event of the polling loop / control endpoint interleaving.  When the
loop's `while` condition observes `monitoring_active == False` the task
leaves the loop and finishes; nothing in the source ever restarts it (the
task is created once, at application startup). -/
def monitorStep (s : LoopState) (e : MonEvent) : LoopState :=
  match e with
  | .pause => { s with ctl := ctlStateAfter "pause" s.ctl }
  | .resume => { s with ctl := ctlStateAfter "resume" s.ctl }
  | .loopCheck =>
    if s.loopRunning && !s.ctl.monitoring_active then
      { s with loopRunning := false }
    else s

/-- Run a sequence of loop/control events. -/
def monitorRun (s : LoopState) (es : List MonEvent) : LoopState :=
  es.foldl monitorStep s

/-- Debounce batcher state: the pending list plus the armed timer's absolute
fire time (`none` = no outstanding `process_after_delay` task). -/
structure BatcherState where
  pending_entries : List Entry
  deadline : Option Int
deriving DecidableEq, Repr

/-- `ChangelogMonitor.handle_new_entries` at time `now`: merge the incoming
entries into the pending list (dedup by id), cancel any outstanding timer and
arm a fresh `asyncio.sleep(300)` timer — the new deadline is `now + 300`
regardless of the old one. -/
def handle_arrival (now : Int) (new_entries : List Entry) (s : BatcherState) :
    BatcherState :=
  { pending_entries := handle_new_entries s.pending_entries new_entries
    deadline := some (now + 300) }

/-- Discrete-event run of the debounce loop: arrivals are consumed in time
order; an armed timer whose deadline is at or before the next arrival fires
first (`process_after_delay` → `process_pending_entries` on the success path:
emit the sorted batch, clear pending and timer); a trailing armed timer fires
after the last arrival.  Returns the list of flushes `(fire time, batch)`. -/
def runDebounceAux : BatcherState → List (Int × List Entry) →
    List (Int × List Entry) → List (Int × List Entry)
  | s, acc, [] =>
    match s.deadline with
    | some d => acc ++ [(d, sortById s.pending_entries)]
    | none => acc
  | s, acc, (t, es) :: rest =>
    match s.deadline with
    | some d =>
      if d ≤ t then
        runDebounceAux
          (handle_arrival t es { pending_entries := [], deadline := none })
          (acc ++ [(d, sortById s.pending_entries)]) rest
      else runDebounceAux (handle_arrival t es s) acc rest
    | none => runDebounceAux (handle_arrival t es s) acc rest

/-- Run the debounce batcher from the idle state on a time-ordered arrival
sequence. -/
def runDebounce (arrivals : List (Int × List Entry)) :
    List (Int × List Entry) :=
  runDebounceAux { pending_entries := [], deadline := none } [] arrivals

/-- One record of the Reddit published-entry ledger (`reddit_posts.json`),
as written by `save_batch_post_info`; records written by the older
`save_post_info` have no `batch_id`/`entry_ids`/`entry_count` keys, modelled
by `batch_id = none`. -/
structure PostRecord where
  batch_id : Option String
  entry_ids : List String
  entry_id : String
  post_id : String
  title : String
  url : String
  flair : Option String
  posted_at : Int
  pinned : Bool
  force_used : Bool
  entry_count : Nat
deriving DecidableEq, Repr, Inhabited

/-- The parsed ledger document `{"posts": [...]}`. -/
structure PostsData where
  posts : List PostRecord
deriving DecidableEq, Repr, Inhabited

/-- State of the ledger file `REDDIT_POSTS_PATH`: absent, unreadable (open or
read raises), syntactically invalid JSON (`json.load` raises), or a valid
ledger document. -/
inductive LedgerFile where
  | absent
  | unreadable
  | invalidJson (raw : String)
  | valid (contents : PostsData)
deriving DecidableEq, Repr

/-- `get_posted_entries`: returns the parsed ledger; a missing file returns
`{"posts": []}`, and the surrounding `try/except` turns any open/read/parse
exception into `{"posts": []}` as well. -/
def get_posted_entries : LedgerFile → PostsData
  | .absent => { posts := [] }
  | .unreadable => { posts := [] }
  | .invalidJson _ => { posts := [] }
  | .valid d => d

/-- `generate_batch_id`: a single entry yields its own id; otherwise the raw
id strings are sorted (Python `list.sort` on `str`, i.e. `strLe`) and the id
is `"batch_<first>_<last>"`.  On an empty list `entry_ids[0]` raises
`IndexError`, modelled by `none` (every caller guards non-emptiness). -/
def generate_batch_id (entries : List Entry) : Option String :=
  if entries.length = 1 then some ((entries.headD default).id)
  else
    match List.insertionSort strLe (entries.map Entry.id) with
    | [] => none
    | first :: rest => some ("batch_" ++ first ++ "_" ++ rest.getLastD first)

/-- Descending `posted_at` order used by
`posts_data["posts"].sort(key=lambda x: x["posted_at"], reverse=True)`
(`posted_at` is an ISO timestamp string, compared chronologically). -/
def postedAtDesc (a b : PostRecord) : Prop := b.posted_at ≤ a.posted_at

instance : DecidableRel postedAtDesc := fun a b => Int.decLe _ _

/-- `save_batch_post_info`: append the batch record to the ledger and re-sort
it newest-first.  `entries[-1]["id"]` is kept as `entry_id` for
compatibility. -/
def save_batch_post_info (batch_id : String) (entries : List Entry)
    (post_id title url : String) (flair_applied : Option String)
    (force_used : Bool) (now : Int) (ledger : PostsData) : PostsData :=
  let record : PostRecord :=
    { batch_id := some batch_id
      entry_ids := entries.map Entry.id
      entry_id := (entries.getLastD default).id
      post_id := post_id
      title := title
      url := url
      flair := flair_applied
      posted_at := now
      pinned := true
      force_used := force_used
      entry_count := entries.length }
  { posts := List.insertionSort postedAtDesc (ledger.posts ++ [record]) }

/-- The per-record test of the inner duplicate loop of
`post_changelog_batch_to_reddit`:
`post["entry_id"] == entry["id"] and not post.get("batch_id")`
(`post.get("batch_id")` is falsy when the key is absent or empty). -/
def indivCheck (r : PostRecord) (e : Entry) : Bool :=
  decide (r.entry_id = e.id) && decide (r.batch_id.getD "" = "")

/-- What the duplicate scan found. -/
inductive DupHit where
  | batch (r : PostRecord)
  | individual (eid : String)
deriving DecidableEq, Repr

/-- The `for post in posts_data["posts"]` duplicate scan of
`post_changelog_batch_to_reddit`: the first record whose `batch_id` equals
this batch's id wins (return "already posted"); otherwise the first record
matching some entry individually wins (return the individual-duplicate
failure); otherwise the scan continues. -/
def find_duplicate (bid : String) (entries : List Entry) :
    List PostRecord → Option DupHit
  | [] => none
  | r :: rest =>
    if r.batch_id = some bid then some (.batch r)
    else
      match entries.find? (indivCheck r) with
      | some e => some (.individual e.id)
      | none => find_duplicate bid entries rest

/-- Behavior of the external Reddit API during one publish call:
`initFail` models a `None` from the Reddit client constructor/login,
`submitRaise` an exception out of `subreddit.submit`/the posting block, and
`ok` a successful submission (post id, echoed title, URL). -/
inductive RedditApi where
  | initFail
  | submitRaise
  | ok (post_id title url : String)
deriving DecidableEq, Repr

/-- The `(success, message)` outcomes of `post_changelog_batch_to_reddit`,
one constructor per return statement. -/
inductive PostOutcome where
  | noEntries
  | alreadyPosted (url : String)
  | dupIndividual (eid : String)
  | testPost
  | apiInitFailed
  | posted (post_id : String)
  | submitError
deriving DecidableEq, Repr

/-- The boolean `success` component of each `(success, message)` return of
`post_changelog_batch_to_reddit`. -/
def PostOutcome.success : PostOutcome → Bool
  | .noEntries => false
  | .alreadyPosted _ => true
  | .dupIndividual _ => false
  | .testPost => true
  | .apiInitFailed => false
  | .posted _ => true
  | .submitError => false

/-- `post_changelog_batch_to_reddit`: guard the empty batch, compute the
batch id, run the ledger duplicate scan unless `force`, honor `test_mode`,
then submit and record the post in the ledger.  Flair lookup and
pinned-post management only log and touch the `pinned`/`flair` fields of the
new record's metadata; they never append a record or change the outcome, so
they are folded into the `ok` branch. -/
def post_changelog_batch_to_reddit (ledger : PostsData) (entries : List Entry)
    (test_mode force : Bool) (api : RedditApi) (now : Int) :
    PostOutcome × PostsData :=
  if entries.isEmpty then (.noEntries, ledger)
  else
    let batch_id := (generate_batch_id entries).getD ""
    match (if force then none else find_duplicate batch_id entries ledger.posts) with
    | some (.batch r) => (.alreadyPosted r.url, ledger)
    | some (.individual eid) => (.dupIndividual eid, ledger)
    | none =>
      if test_mode then (.testPost, ledger)
      else
        match api with
        | .initFail => (.apiInitFailed, ledger)
        | .submitRaise => (.submitError, ledger)
        | .ok post_id title url =>
          (.posted post_id,
           save_batch_post_info batch_id entries post_id title url none force now ledger)

/-- `get_entries_in_window`: the entries of the store whose timestamp lies in
`[target - window_minutes, target]`, sorted ascending by timestamp
(timestamps in minutes). -/
def get_entries_in_window (all_entries : List Entry) (target_entry : Entry)
    (window_minutes : Int) : List Entry :=
  let window_start := target_entry.timestamp - window_minutes
  List.insertionSort (fun a b : Entry => a.timestamp ≤ b.timestamp)
    (all_entries.filter (fun e =>
      decide (window_start ≤ e.timestamp) && decide (e.timestamp ≤ target_entry.timestamp)))

/-- `post_changelog_to_reddit`: re-reads the whole changelog store, keeps the
entries within 30 minutes of the given entry, and posts that batch — the
batch actually published is `get_entries_in_window store entry 30`, not the
argument the monitor handed over. -/
def post_changelog_to_reddit (ledger : PostsData) (store : List Entry)
    (entry : Entry) (test_mode force : Bool) (api : RedditApi) (now : Int) :
    PostOutcome × PostsData :=
  post_changelog_batch_to_reddit ledger (get_entries_in_window store entry 30)
    test_mode force api now

/-- Ordering of watermark values: `none` (never persisted) below everything,
persisted ids compared numerically like the sources compare ids. -/
def wmLeB (a b : Option String) : Bool :=
  match a, b with
  | none, _ => true
  | some _, none => false
  | some x, some y => decide (intOfDigits x ≤ intOfDigits y)

/-- Concrete entry 1 (timestamps far apart from `entB` on purpose). -/
def entA : Entry := { id := "1", author := "alice", timestamp := 0, content := "fix a" }

/-- Concrete entry 2, more than 30 minutes after `entA`. -/
def entB : Entry := { id := "2", author := "bob", timestamp := 100000, content := "fix b" }

/-- Concrete entry 3. -/
def entC : Entry := { id := "3", author := "carol", timestamp := 100001, content := "fix c" }

theorem getLastD_mem {α : Type} (l : List α) (d : α) (h : l ≠ []) :
    l.getLastD d ∈ l := by
  induction l generalizing d with
  | nil => exact absurd rfl h
  | cons a t ih =>
    rw [List.getLastD_cons]
    cases t with
    | nil => simp
    | cons b t2 => exact List.mem_cons_of_mem _ (ih a (by simp))

theorem sorted_le_getLastD {l : List Entry} (hs : List.Sorted byIdLe l)
    {x : Entry} (hx : x ∈ l) (d : Entry) : intId x ≤ intId (l.getLastD d) := by
  induction l generalizing d with
  | nil => simp at hx
  | cons a t ih =>
    rw [List.getLastD_cons]
    rcases List.mem_cons.mp hx with h1 | hxt
    · rw [h1]
      cases t with
      | nil => exact Nat.le_refl _
      | cons b t2 =>
        exact (List.sorted_cons.mp hs).1 _ (getLastD_mem (b :: t2) a (by simp))
    · exact ih (List.sorted_cons.mp hs).2 hxt a

theorem sortById_ne_nil {pending : List Entry} (hne : pending ≠ []) :
    sortById pending ≠ [] := by
  intro h
  have hlen := (List.perm_insertionSort byIdLe pending).length_eq
  rw [show List.insertionSort byIdLe pending = sortById pending from rfl, h] at hlen
  exact hne (List.eq_nil_of_length_eq_zero hlen.symm)

/-- Shared shape of a completed flush with a non-empty pending list: the
sinks never propagate an exception, so the success tail of
`process_pending_entries` always runs. -/
theorem flush_result_eq (wm : Option String) (pending : List Entry)
    (re we : Bool) (rb wb : SinkBehavior) (hne : pending ≠ []) :
    process_pending_entries wm pending re we rb wb =
      { last_processed_entry_id := some ((sortById pending).getLastD default).id
        saved_state := some (some ((sortById pending).getLastD default).id)
        pending_entries := []
        timer_cleared := true
        redditArg := if re then some ((sortById pending).getLastD default) else none
        wikiArg := if we then some (sortById pending) else none } := by
  have hie : pending.isEmpty = false := by
    cases pending with
    | nil => exact absurd rfl hne
    | cons a t => rfl
  unfold process_pending_entries
  rw [hie]
  cases rb <;> cases wb <;>
    simp [post_batch_to_reddit_propagates, update_wiki_propagates]

/-- C1: the claim says a failed or raising sink publish leaves the pending
batch in place and the watermark unadvanced.  In the source,
`post_batch_to_reddit` and `update_wiki_with_new_entries` both swallow every
failure and exception, so `process_pending_entries` always reaches its
success tail: even when the Reddit sink raises, the watermark is advanced to
the batch maximum, persisted, and the pending set is cleared — the batch is
not retried and a restarted process will not re-detect it. -/
theorem C1_failed_flush_advances_watermark :
    (∀ b, post_batch_to_reddit_propagates b = false) ∧
    (∀ b, update_wiki_propagates b = false) ∧
    process_pending_entries (some "0") [entA] true false .raises .succeeds =
      { last_processed_entry_id := some "1", saved_state := some (some "1"),
        pending_entries := [], timer_cleared := true,
        redditArg := some entA, wikiArg := none } :=
  ⟨fun b => by cases b <;> rfl, fun b => by cases b <;> rfl, by decide⟩

/-- C2 counterexample: with pending entries 1 and 2 whose timestamps are
more than 30 minutes apart, the Reddit sink's publish step is handed only
the latest entry, and the batch the Reddit side actually assembles
(`get_entries_in_window`) is `[entB]`, not the full sorted pending batch
`[entA, entB]`. -/
theorem C2_reddit_sink_not_handed_full_batch :
    (process_pending_entries none [entA, entB] true true .succeeds .succeeds).redditArg
        = some entB ∧
    get_entries_in_window [entA, entB] entB 30 = [entB] ∧
    ¬ get_entries_in_window [entA, entB] entB 30 = sortById [entA, entB] := by
  decide

/-- C2 (amended): when the debounce timer fires uninterrupted with a
non-empty pending set, the wiki sink (when enabled) is handed the full
pending batch sorted ascending by id, the Reddit sink (when enabled) is
handed only the maximum-id entry, and — regardless of sink outcomes — the
watermark is set to the maximum id in the batch, persisted, the pending set
is cleared and the timer returns to idle. -/
theorem C2_flush_contract (wm : Option String) (pending : List Entry)
    (redditEnabled wikiEnabled : Bool) (rb wb : SinkBehavior)
    (hne : pending ≠ []) :
    ∃ latest, latest ∈ pending ∧ (∀ e ∈ pending, intId e ≤ intId latest) ∧
      process_pending_entries wm pending redditEnabled wikiEnabled rb wb =
        { last_processed_entry_id := some latest.id
          saved_state := some (some latest.id)
          pending_entries := []
          timer_cleared := true
          redditArg := if redditEnabled then some latest else none
          wikiArg := if wikiEnabled then some (sortById pending) else none } := by
  have hsp : (sortById pending).Perm pending := List.perm_insertionSort _ _
  refine ⟨(sortById pending).getLastD default, ?_, ?_, ?_⟩
  · exact hsp.mem_iff.mp (getLastD_mem _ _ (sortById_ne_nil hne))
  · intro e he
    exact sorted_le_getLastD (List.sorted_insertionSort _ _) (hsp.mem_iff.mpr he) _
  · exact flush_result_eq wm pending redditEnabled wikiEnabled rb wb hne

/-- Witness for `C2_flush_contract` at a concrete input. -/
theorem C2_flush_contract_witness :
    ∃ latest, latest ∈ [entA, entB] ∧
      (∀ e ∈ [entA, entB], intId e ≤ intId latest) ∧
      process_pending_entries none [entA, entB] true true .succeeds .succeeds =
        { last_processed_entry_id := some latest.id
          saved_state := some (some latest.id)
          pending_entries := []
          timer_cleared := true
          redditArg := if true then some latest else none
          wikiArg := if true then some (sortById [entA, entB]) else none } :=
  C2_flush_contract none [entA, entB] true true .succeeds .succeeds (by decide)

/-- C3: with the 300-second debounce delay and arrivals at 0s, 290s and
580s, each arrival re-arms the timer at `arrival + 300`, so exactly one
flush occurs, at 880s = 580s + 300s (hence not before 300s after the last
arrival), containing all three entries. -/
theorem C3_debounce_timing :
    runDebounce [(0, [entA]), (290, [entB]), (580, [entC])]
        = [(880, [entA, entB, entC])] ∧
    (880 : Int) = 580 + 300 ∧ 580 + 300 ≤ (880 : Int) := by decide

/-- C4: detection returns exactly the parsed store entries newer than the
watermark (as a multiset: a permutation of the filtered store), sorted
ascending by numeric id; membership is `id > watermark`; and with no
persisted watermark every parsed entry is returned (a permutation of the
whole store) rather than an error being raised. -/
theorem C4_detect_contract (w : String) (wm : Option String)
    (parsed : List Entry) :
    (detect_new_entries wm (some parsed)).Perm (parsed.filter (isNewEntry wm)) ∧
    List.Sorted byIdLe (detect_new_entries wm (some parsed)) ∧
    (∀ e, e ∈ detect_new_entries (some w) (some parsed) ↔
        e ∈ parsed ∧ intOfDigits w < intId e) ∧
    (detect_new_entries none (some parsed)).Perm parsed := by
  refine ⟨List.perm_insertionSort _ _, List.sorted_insertionSort _ _, ?_, ?_⟩
  · intro e
    rw [show detect_new_entries (some w) (some parsed)
          = List.insertionSort byIdLe (parsed.filter (isNewEntry (some w))) from rfl,
        (List.perm_insertionSort byIdLe _).mem_iff, List.mem_filter]
    simp [isNewEntry]
  · have hft : parsed.filter (isNewEntry none) = parsed :=
      List.filter_eq_self.mpr (fun a _ => rfl)
    show (List.insertionSort byIdLe (parsed.filter (isNewEntry none))).Perm parsed
    rw [hft]
    exact List.perm_insertionSort _ _

/-- C7: `pause` makes the polling loop's `while self.monitoring_active:`
condition observe `False`, at which point the task leaves the loop for good;
`resume` only sets the flag back and nothing restarts the task, so after
pause, one loop iteration, and resume, the polling loop is no longer running
(while the flag claims it is), and stays dead through further iterations.
Only a resume that lands before the loop observes the pause keeps polling
alive. -/
theorem C7_resume_does_not_restart_polling :
    (monitorRun { ctl := { monitoring_active := true, pending_entries := [],
                           timer_armed := false, last_processed_entry_id := none },
                  loopRunning := true }
        [.pause, .loopCheck, .resume, .loopCheck, .loopCheck] =
      { ctl := { monitoring_active := true, pending_entries := [],
                 timer_armed := false, last_processed_entry_id := none },
        loopRunning := false }) ∧
    (monitorRun { ctl := { monitoring_active := true, pending_entries := [],
                           timer_armed := false, last_processed_entry_id := none },
                  loopRunning := true }
        [.pause, .resume] =
      { ctl := { monitoring_active := true, pending_entries := [],
                 timer_armed := false, last_processed_entry_id := none },
        loopRunning := true }) := by decide

theorem handle_step_nodup (p inc : List Entry)
    (hp : (p.map Entry.id).Nodup) (hinc : (inc.map Entry.id).Nodup) :
    ((handle_new_entries p inc).map Entry.id).Nodup := by
  unfold handle_new_entries
  rw [List.map_append, List.nodup_append]
  refine ⟨hp, ((List.filter_sublist _).map Entry.id).nodup hinc, ?_⟩
  intro x hx1 hx2
  rcases List.mem_map.mp hx2 with ⟨e, he, rfl⟩
  have hkeep := List.of_mem_filter he
  simp only [Bool.not_eq_true', decide_eq_false_iff_not] at hkeep
  exact hkeep hx1

/-- C5: with a watermark covering every parsed store entry, detection
returns the empty sequence (and, being a pure function of its inputs, does
so on every such call); detection preserves uniqueness of ids; and any
sequence of detection cycles folded into the pending list through
`handle_new_entries` keeps the pending ids duplicate-free. -/
theorem C5_detection_idempotent_and_no_duplicate_pending (w : String)
    (parsed : List Entry) (wm : Option String) (batches : List (List Entry))
    (hall : ∀ e ∈ parsed, intId e ≤ intOfDigits w)
    (hb : ∀ b ∈ batches, (b.map Entry.id).Nodup) :
    detect_new_entries (some w) (some parsed) = [] ∧
    ((parsed.map Entry.id).Nodup →
      ((detect_new_entries wm (some parsed)).map Entry.id).Nodup) ∧
    ((batches.foldl handle_new_entries []).map Entry.id).Nodup := by
  refine ⟨?_, ?_, ?_⟩
  · have hf : parsed.filter (isNewEntry (some w)) = [] := by
      rw [List.filter_eq_nil_iff]
      intro e he
      simp only [isNewEntry, decide_eq_true_eq, Nat.not_lt]
      exact hall e he
    show List.insertionSort byIdLe (parsed.filter (isNewEntry (some w))) = []
    rw [hf]
    rfl
  · intro hnd
    have hperm : ((detect_new_entries wm (some parsed)).map Entry.id).Perm
        ((parsed.filter (isNewEntry wm)).map Entry.id) :=
      (List.perm_insertionSort byIdLe _).map _
    exact hperm.symm.nodup (((List.filter_sublist _).map Entry.id).nodup hnd)
  · have step : ∀ bs : List (List Entry), (∀ b ∈ bs, (b.map Entry.id).Nodup) →
        ∀ p : List Entry, (p.map Entry.id).Nodup →
        ((bs.foldl handle_new_entries p).map Entry.id).Nodup := by
      intro bs
      induction bs with
      | nil => intro _ p hp; simpa using hp
      | cons b t ih =>
        intro hbs p hp
        simp only [List.foldl_cons]
        exact ih (fun x hx => hbs x (List.mem_cons_of_mem _ hx)) _
          (handle_step_nodup p b hp (hbs b (List.mem_cons_self _ _)))
    exact step batches hb [] (by simp)

/-- Witness for `C5_detection_idempotent_and_no_duplicate_pending` at a
concrete input. -/
theorem C5_detection_idempotent_witness :
    detect_new_entries (some "9") (some [entA]) = [] ∧
    (([entA].map Entry.id).Nodup →
      ((detect_new_entries none (some [entA])).map Entry.id).Nodup) ∧
    (([[entA], [entB]].foldl handle_new_entries []).map Entry.id).Nodup :=
  C5_detection_idempotent_and_no_duplicate_pending "9" [entA] none
    [[entA], [entB]] (by decide) (by decide)

/-- C8: the watermark never decreases: loading persisted state happens only
at construction time when the in-memory watermark is still `None`; a flush
of a pending batch whose members all pass the newness test moves the
watermark up to a member id; and the `reset` control action leaves the
watermark untouched. -/
theorem C8_watermark_monotone (f : StateFile) (wm : Option String)
    (pending : List Entry) (re we : Bool) (rb wb : SinkBehavior)
    (s : MonitorCtlState)
    (hp : ∀ e ∈ pending, isNewEntry wm e = true) :
    wmLeB none (load_state f) = true ∧
    wmLeB wm (process_pending_entries wm pending re we rb wb).last_processed_entry_id
        = true ∧
    (ctlStateAfter "reset" s).last_processed_entry_id = s.last_processed_entry_id := by
  refine ⟨by cases f <;> rfl, ?_, rfl⟩
  by_cases hne : pending = []
  · subst hne
    have hwm : (process_pending_entries wm [] re we rb wb).last_processed_entry_id
        = wm := rfl
    rw [hwm]
    cases wm with
    | none => rfl
    | some x => simp [wmLeB]
  · rw [flush_result_eq wm pending re we rb wb hne]
    have hmem : (sortById pending).getLastD default ∈ pending :=
      (List.perm_insertionSort byIdLe pending).mem_iff.mp
        (getLastD_mem _ _ (sortById_ne_nil hne))
    have hnew := hp _ hmem
    cases wm with
    | none => rfl
    | some x =>
      simp only [isNewEntry, decide_eq_true_eq] at hnew
      simp only [wmLeB, decide_eq_true_eq]
      exact Nat.le_of_lt hnew

/-- Witness for `C8_watermark_monotone` at a concrete input. -/
theorem C8_watermark_monotone_witness :
    wmLeB none (load_state .absent) = true ∧
    wmLeB (some "0")
        (process_pending_entries (some "0") [entA] true true
          .succeeds .succeeds).last_processed_entry_id = true ∧
    (ctlStateAfter "reset"
        { monitoring_active := true, pending_entries := [entA],
          timer_armed := true,
          last_processed_entry_id := some "5" }).last_processed_entry_id =
      ({ monitoring_active := true, pending_entries := [entA],
         timer_armed := true,
         last_processed_entry_id := some "5" } : MonitorCtlState).last_processed_entry_id :=
  C8_watermark_monotone .absent (some "0") [entA] true true .succeeds .succeeds
    { monitoring_active := true, pending_entries := [entA],
      timer_armed := true, last_processed_entry_id := some "5" } (by decide)

/-- C9: `generate_batch_id` is a pure function of its argument and is
invariant under reordering of a non-empty entry list (single entry: its own
id; several entries: `batch_<first>_<last>` over the lexicographically
sorted id strings), and never fails on a non-empty list. -/
theorem C9_generate_batch_id_perm_invariant (l l2 : List Entry)
    (hne : l ≠ []) (hperm : l.Perm l2) :
    generate_batch_id l = generate_batch_id l2 ∧
    (generate_batch_id l).isSome = true := by
  have hlen : l.length = l2.length := hperm.length_eq
  by_cases h1 : l.length = 1
  · rcases l with _ | ⟨a, t⟩
    · exact absurd rfl hne
    · have ht : t = [] := by
        rcases t with _ | ⟨b, t2⟩
        · rfl
        · simp at h1
      subst ht
      rcases l2 with _ | ⟨b, t2⟩
      · simp at hlen
      · rcases t2 with _ | ⟨c, t3⟩
        · have hab : a = b := by
            simpa using hperm.mem_iff.mp (List.mem_singleton_self a)
          subst hab
          exact ⟨rfl, rfl⟩
        · simp at hlen
  · have h2 : ¬ l2.length = 1 := by rw [← hlen]; exact h1
    have hsorted_eq : List.insertionSort strLe (l.map Entry.id)
        = List.insertionSort strLe (l2.map Entry.id) :=
      List.eq_of_perm_of_sorted
        (((List.perm_insertionSort strLe _).trans (hperm.map _)).trans
          (List.perm_insertionSort strLe _).symm)
        (List.sorted_insertionSort _ _) (List.sorted_insertionSort _ _)
    have hne2 : List.insertionSort strLe (l.map Entry.id) ≠ [] := by
      intro h
      have hl := (List.perm_insertionSort strLe (l.map Entry.id)).length_eq
      rw [h] at hl
      simp only [List.length_nil, List.length_map] at hl
      exact hne (List.eq_nil_of_length_eq_zero hl.symm)
    simp only [generate_batch_id, if_neg h1, if_neg h2, ← hsorted_eq]
    refine ⟨trivial, ?_⟩
    cases hS : List.insertionSort strLe (l.map Entry.id) with
    | nil => exact absurd hS hne2
    | cons x xs => rfl

/-- Witness for `C9_generate_batch_id_perm_invariant` at a concrete input. -/
theorem C9_generate_batch_id_witness :
    generate_batch_id [entA, entB] = generate_batch_id [entB, entA] ∧
    (generate_batch_id [entA, entB]).isSome = true :=
  C9_generate_batch_id_perm_invariant [entA, entB] [entB, entA] (by decide)
    (List.Perm.swap entB entA [])

/-- C10: `get_posted_entries` returns the empty ledger `{"posts": []}` for a
missing, unreadable, or syntactically invalid ledger file instead of
raising, so a corrupt ledger looks exactly like an empty one to the
duplicate check. -/
theorem C10_get_posted_entries_total :
    get_posted_entries .absent = { posts := [] } ∧
    get_posted_entries .unreadable = { posts := [] } ∧
    ∀ raw, get_posted_entries (.invalidJson raw) = { posts := [] } :=
  ⟨rfl, rfl, fun _ => rfl⟩

theorem find_duplicate_eq_none (bid : String) (entries : List Entry)
    (l : List PostRecord) (h : find_duplicate bid entries l = none) :
    ∀ r ∈ l, r.batch_id ≠ some bid ∧ entries.find? (indivCheck r) = none := by
  induction l with
  | nil => intro r hr; simp at hr
  | cons r0 rest ih =>
    intro r hr
    simp only [find_duplicate] at h
    by_cases hb : r0.batch_id = some bid
    · rw [if_pos hb] at h; simp at h
    · rw [if_neg hb] at h
      cases hf : entries.find? (indivCheck r0) with
      | some e => rw [hf] at h; simp at h
      | none =>
        rw [hf] at h
        rcases List.mem_cons.mp hr with h1 | h1
        · rw [h1]; exact ⟨hb, hf⟩
        · exact ih h r h1

theorem find_duplicate_isBatch (bid : String) (entries : List Entry)
    (l : List PostRecord)
    (hind : ∀ r ∈ l, r.batch_id = some bid ∨ entries.find? (indivCheck r) = none)
    (hex : ∃ r ∈ l, r.batch_id = some bid) :
    ∃ r0, find_duplicate bid entries l = some (.batch r0) ∧
      r0.batch_id = some bid := by
  induction l with
  | nil => simp at hex
  | cons r rest ih =>
    by_cases hb : r.batch_id = some bid
    · exact ⟨r, by simp only [find_duplicate, if_pos hb], hb⟩
    · rcases hind r (List.mem_cons_self _ _) with h | hfnone
      · exact absurd h hb
      · have hind2 : ∀ x ∈ rest,
            x.batch_id = some bid ∨ entries.find? (indivCheck x) = none :=
          fun x hx => hind x (List.mem_cons_of_mem _ hx)
        have hex2 : ∃ x ∈ rest, x.batch_id = some bid := by
          rcases hex with ⟨x, hx, hxb⟩
          rcases List.mem_cons.mp hx with h1 | h1
          · exact absurd (h1 ▸ hxb) hb
          · exact ⟨x, h1, hxb⟩
        rcases ih hind2 hex2 with ⟨r0, hfind, hr0⟩
        refine ⟨r0, ?_, hr0⟩
        simp only [find_duplicate, if_neg hb, hfnone]
        exact hfind

/-- C6: if a first `post_changelog_batch_to_reddit` call with `force=False`
actually posted a batch, a second call with the identical batch and
`force=False` finds the batch record written by the first call during its
ledger scan and returns the "already posted" result — which carries
`success = True`, distinguishing the no-op from a failure — without
appending anything to the ledger. -/
theorem C6_second_publish_is_already_posted_noop (ledger : PostsData)
    (entries : List Entry) (api api2 : RedditApi) (now now2 : Int)
    (pid : String) (l1 : PostsData)
    (h : post_changelog_batch_to_reddit ledger entries false false api now
        = (.posted pid, l1)) :
    ∃ u, post_changelog_batch_to_reddit l1 entries false false api2 now2
        = (.alreadyPosted u, l1) ∧
      (PostOutcome.alreadyPosted u).success = true := by
  by_cases he : entries.isEmpty
  · rw [post_changelog_batch_to_reddit, if_pos he] at h
    simp at h
  · rw [post_changelog_batch_to_reddit, if_neg he] at h
    simp only [Bool.false_eq_true, if_false] at h
    cases hfd : find_duplicate ((generate_batch_id entries).getD "") entries ledger.posts with
    | some hit =>
      rw [hfd] at h
      cases hit with
      | batch r => simp at h
      | individual eid => simp at h
    | none =>
      rw [hfd] at h
      cases api with
      | initFail => simp at h
      | submitRaise => simp at h
      | ok pid0 t u0 =>
        rw [Prod.mk.injEq] at h
        obtain ⟨hpid, hl1⟩ := h
        have hnonefacts := find_duplicate_eq_none _ _ _ hfd
        have hperm : l1.posts.Perm (ledger.posts ++
            [{ batch_id := some ((generate_batch_id entries).getD ""),
               entry_ids := entries.map Entry.id,
               entry_id := (entries.getLastD default).id,
               post_id := pid0, title := t, url := u0, flair := none,
               posted_at := now, pinned := true, force_used := false,
               entry_count := entries.length }]) := by
          rw [← hl1]
          exact List.perm_insertionSort _ _
        obtain ⟨r0, hfind, hr0⟩ := find_duplicate_isBatch
            ((generate_batch_id entries).getD "") entries l1.posts
            (by
              intro r hr
              rcases List.mem_append.mp (hperm.mem_iff.mp hr) with hold | hnew
              · exact Or.inr (hnonefacts r hold).2
              · exact Or.inl (by rw [List.mem_singleton.mp hnew]))
            ⟨_, hperm.mem_iff.mpr
              (List.mem_append.mpr (Or.inr (List.mem_singleton_self _))), rfl⟩
        refine ⟨r0.url, ?_, rfl⟩
        rw [post_changelog_batch_to_reddit, if_neg he]
        simp only [Bool.false_eq_true, if_false]
        rw [hfind]

/-- Witness for `C6_second_publish_is_already_posted_noop` at a concrete
input. -/
theorem C6_second_publish_witness :
    ∃ u, post_changelog_batch_to_reddit
        (post_changelog_batch_to_reddit { posts := [] } [entA] false false
          (.ok "p" "t" "u") 7).2
        [entA] false false (.ok "p" "t" "u") 8
      = (.alreadyPosted u,
         (post_changelog_batch_to_reddit { posts := [] } [entA] false false
           (.ok "p" "t" "u") 7).2) ∧
      (PostOutcome.alreadyPosted u).success = true :=
  C6_second_publish_is_already_posted_noop { posts := [] } [entA]
    (.ok "p" "t" "u") (.ok "p" "t" "u") 7 8 "p"
    (post_changelog_batch_to_reddit { posts := [] } [entA] false false
      (.ok "p" "t" "u") 7).2 (by decide)

end THJBot
